import Mathlib

/-!
Shallow embedding of `langfuse_handler` (files
`src/langfuse_handler/langfuse_handler.py` and
`src/langfuse_handler/eval_generator.py`) together with proofs about the
behaviour of `PromptRunner.run_prompt`, `ExperimentRunner.run_experiment`,
`ExperimentRunner.make_serializable` and `ExperimentRunner.get_dataset_run`.

Python values are modelled by the inductive type `PyVal`; Python `dict`s
with string keys (input payloads, prompt configurations, merged trace
records) are modelled as insertion-ordered association lists with the
update-in-place / append semantics of CPython dicts.
-/

namespace LangfuseHandler

/-- A Python runtime value, as far as the library manipulates them:
strings, bytes, `None`, ints, bools, dicts (arbitrary hashable keys),
lists, and objects carrying a `__dict__` of named attributes. -/
inductive PyVal : Type where
  | pstr : String → PyVal
  | pbytes : List Nat → PyVal
  | pnone : PyVal
  | pint : Int → PyVal
  | pbool : Bool → PyVal
  | pdict : List (PyVal × PyVal) → PyVal
  | plist : List PyVal → PyVal
  | pobj : List (String × PyVal) → PyVal
  deriving Repr

/-- Python `str(x)` for the values the library stringifies.  The library
only ever applies `str` to leaves: in `make_serializable` the dict, list
and `__dict__` branches come first, so containers and attribute-bearing
objects never reach the `str` branch.  `str` of a container or of a plain
object (whose text includes a memory address) is therefore modelled
abstractly by a placeholder. -/
def pyStr : PyVal → String
  | .pstr s => s
  | .pbytes _ => "<bytes>"
  | .pnone => "None"
  | .pint i => toString i
  | .pbool b => if b then "True" else "False"
  | .pdict _ => "<dict>"
  | .plist _ => "<list>"
  | .pobj _ => "<object>"

/-- Python truthiness (`if x:`): empty containers, empty strings, zero,
`False` and `None` are falsy; plain objects are truthy by default. -/
def pyTruthy : PyVal → Bool
  | .pstr s => !s.isEmpty
  | .pbytes b => !b.isEmpty
  | .pnone => false
  | .pint i => i != 0
  | .pbool b => b
  | .pdict kvs => !kvs.isEmpty
  | .plist vs => !vs.isEmpty
  | .pobj _ => true

/-- A Python dict with string keys, as an insertion-ordered association
list (unique keys in any dict the code builds). -/
abbrev StrDict := List (String × PyVal)

/-- `Option.orElse` without the thunk, for stating lookup lemmas. -/
def optOr {α : Type} : Option α → Option α → Option α
  | some x, _ => some x
  | none, y => y

/-- CPython `d[k] = v`: update the value in place when the key is
present (keeping its position), otherwise append the new binding. -/
def dictInsert (d : StrDict) (k : String) (v : PyVal) : StrDict :=
  if (d.lookup k).isSome then
    d.map (fun kv => if kv.1 = k then (k, v) else kv)
  else
    d ++ [(k, v)]

/-- The dict comprehension `{k: f(k) for k in keys}`. -/
def dictOfKeys (keys : List String) (f : String → PyVal) : StrDict :=
  keys.foldl (fun d k => dictInsert d k (f k)) []

/-- The dict merge `{**a, **b}`: start from `a`, then write each binding
of `b` over it (so on a key collision `b`'s value wins). -/
def dictMerge (a b : StrDict) : StrDict :=
  b.foldl (fun d kv => dictInsert d kv.1 kv.2) a

/-- CPython `d.pop(k, {})`: the popped value (defaulting to the empty
dict) together with the dict with that key removed. -/
def dictPop (d : StrDict) (k : String) : PyVal × StrDict :=
  ((d.lookup k).getD (.pdict []), d.filter (fun kv => kv.1 != k))

/-- Python `getattr(x, name, None)` over an attribute table. -/
def pyGetattr (attrs : StrDict) (name : String) : PyVal :=
  (attrs.lookup name).getD .pnone

section DictLemmas

theorem lookup_cons_eq {α : Type} (k a : String) (b : α) (rest : List (String × α)) :
    ((a, b) :: rest).lookup k = if k = a then some b else rest.lookup k := by
  by_cases h : k = a
  · simp [List.lookup, h]
  · have hb : (k == a) = false := beq_eq_false_iff_ne.2 h
    simp [List.lookup, hb, h]

theorem lookup_append (l₁ l₂ : StrDict) (k : String) :
    (l₁ ++ l₂).lookup k = optOr (l₁.lookup k) (l₂.lookup k) := by
  induction l₁ with
  | nil => simp [optOr]
  | cons kv rest ih =>
    obtain ⟨a, b⟩ := kv
    by_cases h : k = a <;> simp [lookup_cons_eq, h, ih, optOr]

theorem lookup_mem {l : StrDict} {k : String} {v : PyVal}
    (h : l.lookup k = some v) : (k, v) ∈ l := by
  induction l with
  | nil => simp [List.lookup] at h
  | cons kv rest ih =>
    obtain ⟨a, b⟩ := kv
    rw [lookup_cons_eq] at h
    by_cases hk : k = a
    · rw [if_pos hk] at h
      subst hk
      obtain rfl : b = v := by simpa using h
      exact List.mem_cons_self _ _
    · rw [if_neg hk] at h
      exact List.mem_cons_of_mem _ (ih h)

theorem lookup_isSome_iff {l : StrDict} {k : String} :
    (l.lookup k).isSome ↔ k ∈ l.map Prod.fst := by
  induction l with
  | nil => simp [List.lookup]
  | cons kv rest ih =>
    obtain ⟨a, b⟩ := kv
    by_cases hk : k = a <;> simp [lookup_cons_eq, hk, ih]

theorem lookup_eq_none_of_not_mem {l : StrDict} {k : String}
    (h : k ∉ l.map Prod.fst) : l.lookup k = none := by
  cases he : l.lookup k with
  | none => rfl
  | some v =>
    exact absurd (lookup_isSome_iff.1 (by simp [he])) h

theorem lookup_map_update (d : StrDict) (k k' : String) (v : PyVal) :
    ((d.map (fun kv => if kv.1 = k then (k, v) else kv)).lookup k') =
      if k' = k then (if (d.lookup k).isSome then some v else none)
      else d.lookup k' := by
  induction d with
  | nil => simp [List.lookup]
  | cons kv rest ih =>
    obtain ⟨a, b⟩ := kv
    by_cases h1 : a = k
    · subst h1
      by_cases h2 : k' = a <;>
        simp [lookup_cons_eq, h2, ih]
    · by_cases h2 : k' = a
      · subst h2
        simp [lookup_cons_eq, h1, Ne.symm h1, ih]
      · by_cases h3 : k' = k
        · subst h3
          simp [lookup_cons_eq, h1, h2, ih]
          rw [lookup_cons_eq, if_neg h2]
        · simp [lookup_cons_eq, h1, h2, h3, ih]

theorem lookup_dictInsert (d : StrDict) (k k' : String) (v : PyVal) :
    (dictInsert d k v).lookup k' =
      if k' = k then some v else d.lookup k' := by
  unfold dictInsert
  by_cases hs : (d.lookup k).isSome
  · rw [if_pos hs, lookup_map_update]
    by_cases h : k' = k <;> simp [h, hs]
  · rw [if_neg hs, lookup_append]
    by_cases h : k' = k
    · subst h
      cases he : d.lookup k' with
      | none => simp [lookup_cons_eq, optOr]
      | some w => exact absurd (by simp [he]) hs
    · rw [if_neg h]
      have hb : (k' == k) = false := beq_eq_false_iff_ne.2 h
      cases d.lookup k' <;> simp [List.lookup, hb, optOr]

theorem lookup_foldl_dictOfKeys (keys : List String) (f : String → PyVal)
    (d : StrDict) (k : String) :
    ((keys.foldl (fun d k => dictInsert d k (f k)) d).lookup k) =
      if k ∈ keys then some (f k) else d.lookup k := by
  induction keys generalizing d with
  | nil => simp
  | cons k₀ rest ih =>
    rw [List.foldl_cons, ih, lookup_dictInsert]
    by_cases h1 : k ∈ rest
    · simp [h1]
    · by_cases h2 : k = k₀ <;> simp [h1, h2]

theorem lookup_dictOfKeys (keys : List String) (f : String → PyVal)
    (k : String) :
    (dictOfKeys keys f).lookup k = if k ∈ keys then some (f k) else none := by
  rw [dictOfKeys, lookup_foldl_dictOfKeys]
  simp [List.lookup]

theorem lookup_dictMerge (d₀ b : StrDict) (k : String) :
    (dictMerge d₀ b).lookup k = optOr (b.reverse.lookup k) (d₀.lookup k) := by
  induction b generalizing d₀ with
  | nil => simp [dictMerge, optOr]
  | cons kv rest ih =>
    rw [dictMerge, List.foldl_cons]
    rw [show (rest.foldl (fun d kv => dictInsert d kv.1 kv.2)
          (dictInsert d₀ kv.1 kv.2)) = dictMerge (dictInsert d₀ kv.1 kv.2) rest
        from rfl]
    rw [ih, lookup_dictInsert, List.reverse_cons, lookup_append]
    obtain ⟨a, b⟩ := kv
    cases rest.reverse.lookup k with
    | none =>
      by_cases h : k = a
      · simp [List.lookup, h, optOr]
      · have hb : (k == a) = false := beq_eq_false_iff_ne.2 h
        cases hx : d₀.lookup k <;> simp [List.lookup, h, hb, optOr, hx]
    | some w => simp [optOr]

theorem dictOfKeys_entry_val {keys : List String} {f : String → PyVal}
    {kv : String × PyVal} (h : kv ∈ dictOfKeys keys f) : kv.2 = f kv.1 := by
  suffices H : ∀ (ks : List String) (d : StrDict),
      (∀ kv ∈ d, kv.2 = f kv.1) →
      ∀ kv ∈ ks.foldl (fun d k => dictInsert d k (f k)) d, kv.2 = f kv.1 by
    exact H keys [] (by simp) kv h
  intro ks
  induction ks with
  | nil => intro d hd kv hkv; exact hd kv hkv
  | cons k₀ rest ih =>
    intro d hd kv hkv
    refine ih (dictInsert d k₀ (f k₀)) ?_ kv hkv
    intro kv' hkv'
    unfold dictInsert at hkv'
    by_cases hs : (d.lookup k₀).isSome
    · rw [if_pos hs] at hkv'
      obtain ⟨kv₀, hkv₀, heq⟩ := List.mem_map.1 hkv'
      by_cases hk : kv₀.1 = k₀
      · simp [hk] at heq
        rw [← heq]
      · simp [hk] at heq
        rw [← heq]
        exact hd kv₀ hkv₀
    · rw [if_neg hs] at hkv'
      rcases List.mem_append.1 hkv' with h1 | h2
      · exact hd kv' h1
      · simp at h2
        rw [h2]

theorem lookup_dictMerge_right {a b : StrDict} {f : String → PyVal}
    {keys : List String} {k : String}
    (hb : b = dictOfKeys keys f) (hk : k ∈ keys) :
    (dictMerge a b).lookup k = some (f k) := by
  rw [lookup_dictMerge]
  have hsome : (b.reverse.lookup k).isSome := by
    rw [lookup_isSome_iff, List.map_reverse, List.mem_reverse,
        ← lookup_isSome_iff, hb, lookup_dictOfKeys, if_pos hk]
    rfl
  obtain ⟨v, hv⟩ := Option.isSome_iff_exists.1 hsome
  have hmem : (k, v) ∈ b := List.mem_reverse.1 (lookup_mem hv)
  have := dictOfKeys_entry_val (hb ▸ hmem)
  simp at this
  rw [hv, this, optOr]

theorem lookup_dictMerge_left {a b : StrDict} {f : String → PyVal}
    {keys : List String} {k : String}
    (hb : b = dictOfKeys keys f) (hk : k ∉ keys) :
    (dictMerge a b).lookup k = a.lookup k := by
  rw [lookup_dictMerge]
  have hnone : b.reverse.lookup k = none := by
    apply lookup_eq_none_of_not_mem
    rw [List.map_reverse, List.mem_reverse]
    intro hmem
    exact hk (by
      have := lookup_isSome_iff.2 hmem
      rw [hb, lookup_dictOfKeys] at this
      by_contra hk'
      simp [hk'] at this)
  rw [hnone, optOr]

theorem lookup_filter_ne (d : StrDict) (k : String) :
    (d.filter (fun kv => kv.1 != k)).lookup k = none := by
  induction d with
  | nil => simp [List.lookup]
  | cons kv rest ih =>
    obtain ⟨a, b⟩ := kv
    by_cases h : a = k
    · simp [List.filter_cons, h, ih]
    · simp [List.filter_cons, h, lookup_cons_eq, Ne.symm h, ih]

end DictLemmas

/-!
`ExperimentRunner.make_serializable` walks dicts and lists recursively,
flattens any object carrying a `__dict__` by recursing on that attribute
mapping, returns `str` and `bytes` unchanged (the final `else` branch:
every other Python value has `__str__`, so only `str`/`bytes` reach it),
and converts every remaining value to `str(value)`.  Dict *keys* are not
visited: `{k: self.make_serializable(v) for k, v in obj.items()}`.  The
`__dict__` branch recurses on a string-keyed dict of attributes; it is
unfolded one step here (building the dict of serialized attribute values
directly) so the recursion is on structurally smaller arguments.
-/

mutual

def make_serializable : PyVal → PyVal
  | .pdict kvs => .pdict (serializeEntries kvs)
  | .plist vs => .plist (serializeList vs)
  | .pobj fields => .pdict (serializeFields fields)
  | .pstr s => .pstr s
  | .pbytes b => .pbytes b
  | .pnone => .pstr (pyStr .pnone)
  | .pint i => .pstr (pyStr (.pint i))
  | .pbool b => .pstr (pyStr (.pbool b))

def serializeEntries : List (PyVal × PyVal) → List (PyVal × PyVal)
  | [] => []
  | (k, v) :: rest => (k, make_serializable v) :: serializeEntries rest

def serializeList : List PyVal → List PyVal
  | [] => []
  | v :: rest => make_serializable v :: serializeList rest

def serializeFields : List (String × PyVal) → List (PyVal × PyVal)
  | [] => []
  | (k, v) :: rest => (.pstr k, make_serializable v) :: serializeFields rest

end

/-! A value is a plain serializable tree when it consists only of
mappings, sequences, text and binary leaves (no `None`, numbers, bools
or attribute-bearing objects anywhere, keys included). -/

mutual

def serializable : PyVal → Bool
  | .pstr _ => true
  | .pbytes _ => true
  | .pdict kvs => serializableEntries kvs
  | .plist vs => serializableList vs
  | .pnone => false
  | .pint _ => false
  | .pbool _ => false
  | .pobj _ => false

def serializableEntries : List (PyVal × PyVal) → Bool
  | [] => true
  | (k, v) :: rest => serializable k && serializable v && serializableEntries rest

def serializableList : List PyVal → Bool
  | [] => true
  | v :: rest => serializable v && serializableList rest

end

mutual

theorem ms_idem : (v : PyVal) →
    make_serializable (make_serializable v) = make_serializable v
  | .pdict kvs => by
      rw [make_serializable, make_serializable, serializeEntries_idem kvs]
  | .plist vs => by
      rw [make_serializable, make_serializable, serializeList_idem vs]
  | .pobj fields => by
      rw [make_serializable, make_serializable,
        serializeEntries_serializeFields fields]
  | .pstr s => by rw [make_serializable, make_serializable]
  | .pbytes b => by rw [make_serializable, make_serializable]
  | .pnone => by rw [make_serializable, make_serializable]
  | .pint i => by rw [make_serializable, make_serializable]
  | .pbool b => by rw [make_serializable, make_serializable]

theorem serializeEntries_idem : (kvs : List (PyVal × PyVal)) →
    serializeEntries (serializeEntries kvs) = serializeEntries kvs
  | [] => by rw [serializeEntries, serializeEntries]
  | (k, v) :: rest => by
      rw [serializeEntries, serializeEntries, ms_idem v,
        serializeEntries_idem rest]

theorem serializeList_idem : (vs : List PyVal) →
    serializeList (serializeList vs) = serializeList vs
  | [] => by rw [serializeList, serializeList]
  | v :: rest => by
      rw [serializeList, serializeList, ms_idem v, serializeList_idem rest]

theorem serializeEntries_serializeFields : (fields : List (String × PyVal)) →
    serializeEntries (serializeFields fields) = serializeFields fields
  | [] => by rw [serializeFields, serializeEntries]
  | (k, v) :: rest => by
      rw [serializeFields, serializeEntries, ms_idem v,
        serializeEntries_serializeFields rest]

end

/-- Whether a value is a Python `str`. -/
def isPstr : PyVal → Bool
  | .pstr _ => true
  | _ => false

/-! `textKeys`: every mapping key occurring anywhere in the value is a
string. -/

mutual

def textKeys : PyVal → Bool
  | .pdict kvs => textKeysEntries kvs
  | .plist vs => textKeysList vs
  | .pobj fields => textKeysFields fields
  | _ => true

def textKeysEntries : List (PyVal × PyVal) → Bool
  | [] => true
  | (k, v) :: rest => isPstr k && textKeys v && textKeysEntries rest

def textKeysList : List PyVal → Bool
  | [] => true
  | v :: rest => textKeys v && textKeysList rest

def textKeysFields : List (String × PyVal) → Bool
  | [] => true
  | (_, v) :: rest => textKeys v && textKeysFields rest

end

/-! ## The experiment runner and the run fetcher -/

/-- A dataset item as read back from the remote store: a unique id and a
table of named attributes reachable via `getattr` (input,
expected_output, …). -/
structure DatasetItem : Type where
  id : String
  attrs : StrDict
  deriving Repr

/-- A fetched trace: `trace.metadata['dataset_item_id']` (the join key
written by the experiment runner) and the attribute table reachable via
`getattr` (input, output, …). -/
structure Trace : Type where
  metadata_dataset_item_id : String
  attrs : StrDict
  deriving Repr

/-- One record of the run-items endpoint's `data` array; only its
`traceId` field is read. -/
structure RunItem : Type where
  traceId : String
  deriving Repr

/-- The run-items HTTP response: a status code and the parsed `data`
array. -/
structure HTTPResponse : Type where
  status : Nat
  data : List RunItem
  deriving Repr

/-- `requests.Response.raise_for_status` raises `HTTPError` exactly for
client-error (4xx) and server-error (5xx) status codes. -/
def httpIsError (status : Nat) : Bool :=
  400 ≤ status && status < 600

/-- `sleep_time = 60.0 / requests_per_minute if requests_per_minute > 0
else 0`, shared verbatim by `run_experiment` and `get_dataset_run`. -/
def sleepTime (rpm : Int) : ℚ :=
  if rpm > 0 then 60 / (rpm : ℚ) else 0

/-- Default `requests_per_minute` of `run_experiment`. -/
def run_experiment_default_rpm : Int := 1000

/-- Default `requests_per_minute` of `get_dataset_run`. -/
def get_dataset_run_default_rpm : Int := 25

/-- The body of `run_experiment`'s item loop: each selected item is
processed in order and, after processing, the loop sleeps `sleep_time`
seconds whenever `sleep_time > 0` — including after the last item.
Returns the processed items in order and the total seconds slept. -/
def experimentLoop (sleep_time : ℚ) : List DatasetItem → List DatasetItem × ℚ
  | [] => ([], 0)
  | item :: rest =>
      let next := experimentLoop sleep_time rest
      (item :: next.1, (if sleep_time > 0 then sleep_time else 0) + next.2)

/-- The instance attribute of `ExperimentRunner` that `run_experiment`
reads: `self.env_path`.  It is `none` when the attribute has never been
assigned (reading it then raises `AttributeError`) and `some path` when
it has been assigned. -/
structure ExperimentRunner : Type where
  env_path : Option String
  deriving Repr

/-- `ExperimentRunner.__init__`: loads environment variables and creates
the client, but never assigns `self.env_path` — the resulting instance
has no `env_path` attribute. -/
def experimentRunnerInit : ExperimentRunner := { env_path := none }

/-- The slice `dataset.items[:test_count]`: all items when `test_count`
is `None`, the first `min(N, L)` items for a non-negative limit `L`. -/
def sliceItems (items : List DatasetItem) : Option Nat → List DatasetItem
  | none => items
  | some n => items.take n

/-- `run_experiment`: the body first constructs
`PromptRunner(prompt_name, env_path=self.env_path)`; reading
`self.env_path` raises `AttributeError` whenever that attribute was
never assigned — which is the state `__init__` leaves the runner in —
so on such a runner the call fails before the dataset is sliced
(modelled as `.error`).  Otherwise the dataset's items are sliced to
`dataset.items[:test_count]` and the item loop runs; the per-item side
effects (tracing contexts, the model call, the evaluator) and the
remote dataset/prompt fetches are elided, and the result carries the
processed items in order together with the total seconds slept. -/
def run_experiment (runner : ExperimentRunner) (items : List DatasetItem)
    (test_count : Option Nat) (rpm : Int) :
    Except String (List DatasetItem × ℚ) :=
  match runner.env_path with
  | none => .error "AttributeError: env_path"
  | some _ => .ok (experimentLoop (sleepTime rpm) (sliceItems items test_count))

/-- The per-trace merge in `get_dataset_run`:
`trace_dict = {attr: getattr(trace, attr, None) for attr in trace_info}`,
`item_dict = {attr: getattr(item, attr, None) for attr in dataset_item_info}`,
`combined_dict = {**trace_dict, **item_dict}`. -/
def mergedRecord (trace : Trace) (item : DatasetItem)
    (trace_info dataset_item_info : List String) : StrDict :=
  dictMerge (dictOfKeys trace_info (pyGetattr trace.attrs))
    (dictOfKeys dataset_item_info (pyGetattr item.attrs))

/-- The fetch loop of `get_dataset_run`: for each run item, fetch the
trace by id (`traceGet` stands for `langfuse.api.trace.get`), resolve
the dataset item through `item_lookup` — a missing id raises `KeyError`
(modelled as `Except.error` carrying the missing key) — build the merged
record, and sleep when `sleep_time > 0`.  On success returns the records
in endpoint order and the total seconds slept. -/
def fetchLoop (traceGet : String → Trace)
    (item_lookup : List (String × DatasetItem)) (sleep_time : ℚ)
    (trace_info dataset_item_info : List String) :
    List RunItem → Except String (List StrDict × ℚ)
  | [] => .ok ([], 0)
  | ri :: rest =>
      let trace := traceGet ri.traceId
      match item_lookup.lookup trace.metadata_dataset_item_id with
      | none => .error trace.metadata_dataset_item_id
      | some item =>
          match fetchLoop traceGet item_lookup sleep_time trace_info
              dataset_item_info rest with
          | .error e => .error e
          | .ok (recs, s) =>
              .ok (mergedRecord trace item trace_info dataset_item_info :: recs,
                (if sleep_time > 0 then sleep_time else 0) + s)

/-- A string-keyed dict as a `PyVal`, for feeding a merged record to
`make_serializable`. -/
def dictToPyVal (d : StrDict) : PyVal :=
  .pdict (d.map (fun kv => (.pstr kv.1, kv.2)))

/-- `get_dataset_run`: on an HTTP error status the exception from
`raise_for_status` is caught, logged and `None` is returned (`.ok none`);
otherwise the fetch loop runs over the response's `data` array (an
unresolvable dataset-item id propagates as `.error`), and the resulting
records are serialized with `make_serializable`.  The returned total
sleep time is carried alongside for the rate-limit claims. -/
def get_dataset_run (dataset : List DatasetItem) (resp : HTTPResponse)
    (traceGet : String → Trace) (rpm : Int)
    (trace_info dataset_item_info : List String) :
    Except String (Option (List PyVal × ℚ)) :=
  if httpIsError resp.status then .ok none
  else
    let item_lookup := dataset.map (fun item => (item.id, item))
    match fetchLoop traceGet item_lookup (sleepTime rpm) trace_info
        dataset_item_info resp.data with
    | .error e => .error e
    | .ok (recs, s) =>
        .ok (some (recs.map (fun r => make_serializable (dictToPyVal r)), s))

/-! ## The prompt runner -/

/-- `', '.join([f"'\x7bkey\x7d': \x7bvalue\x7d" for key, value in
json_schema.items()])`: the schema dict rendered as `'key': value`
pairs joined by commas.  `.items()` is only defined on dicts; a truthy
non-dict schema would raise `AttributeError` in Python and is rendered
as the empty string here (no claim exercises that case). -/
def renderSchema : PyVal → String
  | .pdict kvs =>
      String.intercalate ", "
        (kvs.map (fun kv => "'" ++ pyStr kv.1 ++ "': " ++ pyStr kv.2))
  | _ => ""

/-- The observable state of one `PromptRunner.run_prompt` call: the input
payload after schema injection (the payload handed to
`self.prompt.compile`), the configuration handed to
`model_client.chat.completions.create`, and the value of
`self.prompt.config` after the call. -/
structure RunPromptResult : Type where
  input_data : StrDict
  client_config : StrDict
  stored_config : StrDict
  deriving Repr

/-- `PromptRunner.run_prompt(input_data, config={})`.  `if not config:`
makes the local `config` an alias of `self.prompt.config` whenever the
caller passes no (or an empty) override, so the subsequent
`config.pop('json_schema', {})` removes the key from the stored prompt
configuration itself; with a non-empty override the stored configuration
is untouched (the override dict is popped instead).  When the popped
schema is truthy it is rendered and written into the input payload under
the reserved key `json_schema_str` before template compilation. -/
def run_prompt (stored_config : StrDict) (input_data : StrDict)
    (config_arg : StrDict) : RunPromptResult :=
  let config := if config_arg.isEmpty then stored_config else config_arg
  let popped := dictPop config "json_schema"
  let config' := popped.2
  let input' :=
    if pyTruthy popped.1 then
      dictInsert input_data "json_schema_str" (.pstr (renderSchema popped.1))
    else input_data
  { input_data := input'
    client_config := config'
    stored_config := if config_arg.isEmpty then config' else stored_config }

/-! ## Helper lemmas about the loops and the merge -/

theorem experimentLoop_fst (st : ℚ) (l : List DatasetItem) :
    (experimentLoop st l).1 = l := by
  induction l with
  | nil => rfl
  | cons item rest ih => simp [experimentLoop, ih]

theorem experimentLoop_eq (st : ℚ) (l : List DatasetItem) :
    experimentLoop st l = (l, (experimentLoop st l).2) := by
  have h := experimentLoop_fst st l
  rcases hp : experimentLoop st l with ⟨a, b⟩
  rw [hp] at h
  simp at h
  rw [h]

theorem experimentLoop_snd (st : ℚ) (l : List DatasetItem) :
    (experimentLoop st l).2 = (l.length : ℚ) * (if st > 0 then st else 0) := by
  induction l with
  | nil => simp [experimentLoop]
  | cons item rest ih =>
    simp [experimentLoop, ih]
    by_cases hst : 0 < st
    · simp [hst]
      ring
    · simp [hst]

theorem sleepTime_of_pos {rpm : Int} (h : 0 < rpm) :
    sleepTime rpm = 60 / (rpm : ℚ) ∧ 0 < sleepTime rpm := by
  rw [sleepTime, if_pos h]
  refine ⟨rfl, ?_⟩
  apply div_pos (by norm_num)
  exact_mod_cast h

theorem sleepTime_of_nonpos {rpm : Int} (h : rpm ≤ 0) : sleepTime rpm = 0 := by
  rw [sleepTime, if_neg (by omega)]

theorem fetchLoop_ok_sleep {traceGet : String → Trace}
    {item_lookup : List (String × DatasetItem)} {st : ℚ} {ti di : List String}
    {ris : List RunItem} {recs : List StrDict} {s : ℚ}
    (h : fetchLoop traceGet item_lookup st ti di ris = .ok (recs, s)) :
    recs.length = ris.length ∧
      s = (ris.length : ℚ) * (if st > 0 then st else 0) := by
  induction ris generalizing recs s with
  | nil =>
    rw [fetchLoop] at h
    obtain ⟨h1, h2⟩ : recs = [] ∧ s = 0 := by
      constructor <;> [exact (congrArg (·.1) (Except.ok.inj h)).symm;
        exact (congrArg (·.2) (Except.ok.inj h)).symm]
    subst h1; subst h2
    simp
  | cons ri rest ih =>
    rw [fetchLoop] at h
    cases hl : item_lookup.lookup (traceGet ri.traceId).metadata_dataset_item_id with
    | none => rw [hl] at h; exact absurd h (by simp)
    | some item =>
      rw [hl] at h
      cases hr : fetchLoop traceGet item_lookup st ti di rest with
      | error e => rw [hr] at h; exact absurd h (by simp)
      | ok p =>
        obtain ⟨recs', s'⟩ := p
        rw [hr] at h
        obtain ⟨h1, h2⟩ :
            recs = mergedRecord (traceGet ri.traceId) item ti di :: recs' ∧
              s = (if st > 0 then st else 0) + s' := by
          constructor <;> [exact (congrArg (·.1) (Except.ok.inj h)).symm;
            exact (congrArg (·.2) (Except.ok.inj h)).symm]
        obtain ⟨ihl, ihs⟩ := ih hr
        subst h1; subst h2
        constructor
        · simp [ihl]
        · rw [ihs]
          by_cases hst : st > 0
          · simp [hst]
            ring
          · simp [hst]

theorem fetchLoop_error_of_missing {traceGet : String → Trace}
    {item_lookup : List (String × DatasetItem)} {st : ℚ} {ti di : List String}
    {ris : List RunItem}
    (h : ∃ ri ∈ ris,
      item_lookup.lookup (traceGet ri.traceId).metadata_dataset_item_id = none) :
    ∃ k, fetchLoop traceGet item_lookup st ti di ris = .error k := by
  induction ris with
  | nil => simp at h
  | cons r rest ih =>
    cases hl : item_lookup.lookup (traceGet r.traceId).metadata_dataset_item_id with
    | none =>
      exact ⟨(traceGet r.traceId).metadata_dataset_item_id, by rw [fetchLoop, hl]⟩
    | some item =>
      obtain ⟨ri, hmem, hri⟩ := h
      have hrest : ri ∈ rest := by
        rcases List.mem_cons.1 hmem with h1 | h1
        · subst h1; exact absurd hri (by simp [hl])
        · exact h1
      obtain ⟨k, hk⟩ := ih ⟨ri, hrest, hri⟩
      exact ⟨k, by rw [fetchLoop, hl, hk]⟩

theorem mergedRecord_lookup_of_mem (trace : Trace) (item : DatasetItem)
    (ti di : List String) {k : String} (hk : k ∈ di) :
    (mergedRecord trace item ti di).lookup k = some (pyGetattr item.attrs k) := by
  unfold mergedRecord
  exact lookup_dictMerge_right rfl hk

theorem mergedRecord_lookup_of_not_mem (trace : Trace) (item : DatasetItem)
    (ti di : List String) {k : String} (hk : k ∉ di) :
    (mergedRecord trace item ti di).lookup k =
      if k ∈ ti then some (pyGetattr trace.attrs k) else none := by
  unfold mergedRecord
  rw [lookup_dictMerge_left rfl hk, lookup_dictOfKeys]

/-! `make_serializable` produces a plain serializable tree on every value
whose mapping keys are all strings (keys are passed through untouched,
so this hypothesis is what makes the output fully primitive). -/

mutual

theorem ms_serializable : (v : PyVal) → textKeys v = true →
    serializable (make_serializable v) = true
  | .pdict kvs => fun h => by
      rw [make_serializable, serializable]
      exact serializeEntries_serializable kvs (by rwa [textKeys] at h)
  | .plist vs => fun h => by
      rw [make_serializable, serializable]
      exact serializeList_serializable vs (by rwa [textKeys] at h)
  | .pobj fields => fun h => by
      rw [make_serializable, serializable]
      exact serializeFields_serializable fields (by rwa [textKeys] at h)
  | .pstr s => fun _ => by rw [make_serializable, serializable]
  | .pbytes b => fun _ => by rw [make_serializable, serializable]
  | .pnone => fun _ => by rw [make_serializable, serializable]
  | .pint i => fun _ => by rw [make_serializable, serializable]
  | .pbool b => fun _ => by rw [make_serializable, serializable]

theorem serializeEntries_serializable : (kvs : List (PyVal × PyVal)) →
    textKeysEntries kvs = true →
    serializableEntries (serializeEntries kvs) = true
  | [] => fun _ => by rw [serializeEntries, serializableEntries]
  | (k, v) :: rest => fun h => by
      rw [textKeysEntries, Bool.and_eq_true, Bool.and_eq_true] at h
      obtain ⟨⟨hk, hv⟩, hrest⟩ := h
      rw [serializeEntries, serializableEntries]
      have hks : serializable k = true := by
        cases k <;> simp_all [serializable, isPstr]
      rw [hks, ms_serializable v hv, serializeEntries_serializable rest hrest]
      rfl

theorem serializeList_serializable : (vs : List PyVal) →
    textKeysList vs = true → serializableList (serializeList vs) = true
  | [] => fun _ => by rw [serializeList, serializableList]
  | v :: rest => fun h => by
      rw [textKeysList, Bool.and_eq_true] at h
      obtain ⟨hv, hrest⟩ := h
      rw [serializeList, serializableList, ms_serializable v hv,
        serializeList_serializable rest hrest]
      rfl

theorem serializeFields_serializable : (fields : List (String × PyVal)) →
    textKeysFields fields = true →
    serializableEntries (serializeFields fields) = true
  | [] => fun _ => by rw [serializeFields, serializableEntries]
  | (k, v) :: rest => fun h => by
      rw [textKeysFields, Bool.and_eq_true] at h
      obtain ⟨hv, hrest⟩ := h
      rw [serializeFields, serializableEntries, ms_serializable v hv,
        serializeFields_serializable rest hrest, serializable]
      rfl

end

/-! ## Claims -/

/-- C1 (counterexample): with `trace_info = ['x']` and
`dataset_item_info = ['x']`, a trace whose `x` is `"trace_val"` and a
dataset item whose `x` is `"item_val"` produce a merged record whose `x`
is the item's value, not the trace's: `{**trace_dict, **item_dict}` lays
the item fields on top, so the claimed trace-over-item precedence fails. -/
theorem mergedRecord_trace_precedence_fails :
    (mergedRecord ⟨"item1", [("x", .pstr "trace_val")]⟩
        ⟨"item1", [("x", .pstr "item_val")]⟩ ["x"] ["x"]).lookup "x" =
      some (.pstr "item_val") ∧
    ¬ (mergedRecord ⟨"item1", [("x", .pstr "trace_val")]⟩
        ⟨"item1", [("x", .pstr "item_val")]⟩ ["x"] ["x"]).lookup "x" =
      some (.pstr "trace_val") := by
  refine ⟨rfl, ?_⟩
  rw [show (mergedRecord ⟨"item1", [("x", .pstr "trace_val")]⟩
      ⟨"item1", [("x", .pstr "item_val")]⟩ ["x"] ["x"]).lookup "x" =
      some (.pstr "item_val") from rfl]
  simp

/-- C1 (amended): in `get_dataset_run`'s merged record, item fields are
layered on top of trace fields, so on a key collision the dataset item's
value wins over the trace's; a key requested only in the trace list
still resolves to the trace's value. -/
theorem mergedRecord_item_wins (trace : Trace) (item : DatasetItem)
    (trace_info dataset_item_info : List String) (k : String) :
    (k ∈ dataset_item_info →
      (mergedRecord trace item trace_info dataset_item_info).lookup k =
        some (pyGetattr item.attrs k)) ∧
    (k ∉ dataset_item_info → k ∈ trace_info →
      (mergedRecord trace item trace_info dataset_item_info).lookup k =
        some (pyGetattr trace.attrs k)) := by
  constructor
  · intro hk
    exact mergedRecord_lookup_of_mem trace item trace_info dataset_item_info hk
  · intro hk hk'
    rw [mergedRecord_lookup_of_not_mem trace item trace_info dataset_item_info hk,
      if_pos hk']

theorem mergedRecord_item_wins_witness :
    (mergedRecord ⟨"item1", [("x", .pstr "trace_val")]⟩
        ⟨"item1", [("x", .pstr "item_val")]⟩ ["x"] ["x"]).lookup "x" =
      some (pyGetattr [("x", PyVal.pstr "item_val")] "x") :=
  (mergedRecord_item_wins ⟨"item1", [("x", .pstr "trace_val")]⟩
    ⟨"item1", [("x", .pstr "item_val")]⟩ ["x"] ["x"] "x").1 (by simp)

/-- C2 (counterexample): the per-call delay in `get_dataset_run`'s
fetch loop — by the claim, the same formula as `run_experiment`'s —
sleeps after every fetch, the last included: fetching the single trace
of a one-item run at `requests_per_minute = 60` sleeps 1 second in
total, whereas the claimed `(K-1) * (60/R)` total would be `0`; a
runner whose `env_path` attribute has been assigned (so that the item
loop is reached) likewise sleeps 1 second over one processed item. -/
theorem get_dataset_run_sleeps_after_last_fetch :
    get_dataset_run [⟨"a", []⟩] ⟨200, [⟨"t1"⟩]⟩ (fun _ => ⟨"a", []⟩) 60 []
        [] = .ok (some ([.pdict []], 1)) ∧
    run_experiment ⟨some ".env"⟩ [⟨"a", []⟩] none 60 =
      .ok ([⟨"a", []⟩], 1) ∧
    ¬ (1 : ℚ) = ((1 : ℚ) - 1) * (60 / 60) := by
  refine ⟨?_, ?_, by norm_num⟩
  · simp [get_dataset_run, httpIsError, fetchLoop, sleepTime, mergedRecord,
      dictMerge, dictOfKeys, dictToPyVal, make_serializable,
      serializeEntries, lookup_cons_eq]
  · simp [run_experiment, sliceItems, experimentLoop, sleepTime]

/-- C2 (amended): `run_experiment` on a runner as left by `__init__`
raises `AttributeError` (the `env_path` attribute is never assigned)
before any item is processed or any sleep happens; on a runner whose
`env_path` attribute has been assigned, for `requests_per_minute = R > 0`
over K processed items the total sleep is `K * (60/R)` — one sleep
after every item, the last included — and for `R ≤ 0` there is no
sleep; the identical per-call formula governs `get_dataset_run`'s fetch
loop; the defaults applied when the argument is unset (1000 for
`run_experiment`, 25 for `get_dataset_run`) are positive, so sleeping
also occurs when the argument is omitted. -/
theorem total_sleep_formula (ep : String) (items : List DatasetItem)
    (tc : Option Nat) (rpm : Int) (traceGet : String → Trace)
    (item_lookup : List (String × DatasetItem)) (ti di : List String)
    (ris : List RunItem) (recs : List StrDict) (s : ℚ) :
    run_experiment experimentRunnerInit items tc rpm =
      .error "AttributeError: env_path" ∧
    (0 < rpm →
      run_experiment ⟨some ep⟩ items tc rpm =
        .ok (sliceItems items tc,
          ((sliceItems items tc).length : ℚ) * (60 / (rpm : ℚ)))) ∧
    (rpm ≤ 0 →
      run_experiment ⟨some ep⟩ items tc rpm = .ok (sliceItems items tc, 0)) ∧
    (fetchLoop traceGet item_lookup (sleepTime rpm) ti di ris =
        .ok (recs, s) →
      (0 < rpm → s = (ris.length : ℚ) * (60 / (rpm : ℚ))) ∧
      (rpm ≤ 0 → s = 0)) ∧
    0 < sleepTime run_experiment_default_rpm ∧
    0 < sleepTime get_dataset_run_default_rpm := by
  refine ⟨rfl, ?_, ?_, ?_, ?_, ?_⟩
  · intro h
    obtain ⟨heq, hpos⟩ := sleepTime_of_pos h
    refine congrArg Except.ok ?_
    rw [experimentLoop_eq, experimentLoop_snd, heq, if_pos (heq ▸ hpos)]
  · intro h
    refine congrArg Except.ok ?_
    rw [experimentLoop_eq, experimentLoop_snd, sleepTime_of_nonpos h]
    norm_num
  · intro hok
    obtain ⟨_, hs⟩ := fetchLoop_ok_sleep hok
    constructor
    · intro h
      obtain ⟨heq, hpos⟩ := sleepTime_of_pos h
      rw [hs, heq, if_pos (heq ▸ hpos)]
    · intro h
      rw [hs, sleepTime_of_nonpos h]
      norm_num
  · exact (sleepTime_of_pos (by norm_num [run_experiment_default_rpm])).2
  · exact (sleepTime_of_pos (by norm_num [get_dataset_run_default_rpm])).2

theorem total_sleep_formula_witness :
    run_experiment experimentRunnerInit [⟨"a", []⟩] none 30 =
      .error "AttributeError: env_path" ∧
    run_experiment ⟨some ".env"⟩ [⟨"a", []⟩, ⟨"b", []⟩] none 30 =
      .ok ([⟨"a", []⟩, ⟨"b", []⟩], ((2 : ℚ)) * (60 / 30)) ∧
    run_experiment ⟨some ".env"⟩ [⟨"a", []⟩] none 0 = .ok ([⟨"a", []⟩], 0) ∧
    ((0 : ℚ) = (([] : List RunItem).length : ℚ) * (60 / 30)) :=
  ⟨(total_sleep_formula ".env" [⟨"a", []⟩] none 30 (fun _ => ⟨"", []⟩)
      [] [] [] [] [] 0).1,
   (total_sleep_formula ".env" [⟨"a", []⟩, ⟨"b", []⟩] none 30
      (fun _ => ⟨"", []⟩) [] [] [] [] [] 0).2.1 (by norm_num),
   (total_sleep_formula ".env" [⟨"a", []⟩] none 0 (fun _ => ⟨"", []⟩)
      [] [] [] [] [] 0).2.2.1 (by norm_num),
   ((total_sleep_formula ".env" [⟨"a", []⟩] none 30 (fun _ => ⟨"", []⟩)
      [] [] [] [] [] 0).2.2.2.1 rfl).1 (by norm_num)⟩

/-- C3: evaluation at the failing input.  With stored prompt
configuration `{'model': 'm', 'json_schema': {'s': 'skill'}}` and no
explicit override, one `run_prompt` call leaves `self.prompt.config`
equal to `{'model': 'm'}`: `config.pop('json_schema', {})` mutates the
stored configuration through the alias created by
`config = self.prompt.config`, so the stored configuration is not the
same after the call and a second call no longer sees the schema. -/
theorem run_prompt_pops_stored_config :
    (run_prompt [("model", .pstr "m"),
        ("json_schema", .pdict [(.pstr "s", .pstr "skill")])] []
        []).stored_config = [("model", .pstr "m")] ∧
    ¬ (run_prompt [("model", .pstr "m"),
        ("json_schema", .pdict [(.pstr "s", .pstr "skill")])] []
        []).stored_config =
      [("model", .pstr "m"),
        ("json_schema", .pdict [(.pstr "s", .pstr "skill")])] := by
  refine ⟨rfl, ?_⟩
  rw [show (run_prompt [("model", .pstr "m"),
      ("json_schema", .pdict [(.pstr "s", .pstr "skill")])] []
      []).stored_config = [("model", .pstr "m")] from rfl]
  simp

/-- C4: whenever the effective configuration (the caller's override when
non-empty, otherwise the stored one) maps `json_schema` to a non-empty
schema dict, one `run_prompt` call (1) writes the schema — rendered as
`'key': description` pairs joined by commas — into the input payload
under the reserved key `json_schema_str`, and (2) hands the inference
client a configuration with no `json_schema` key. -/
theorem run_prompt_schema_injection (stored_config input_data config_arg : StrDict)
    (schema : List (PyVal × PyVal))
    (hs : (if config_arg.isEmpty then stored_config else config_arg).lookup
        "json_schema" = some (.pdict schema))
    (hne : schema ≠ []) :
    (run_prompt stored_config input_data config_arg).input_data.lookup
        "json_schema_str" =
      some (.pstr (renderSchema (.pdict schema))) ∧
    (run_prompt stored_config input_data config_arg).client_config.lookup
        "json_schema" = none := by
  have htruthy : pyTruthy (PyVal.pdict schema) = true := by
    rw [pyTruthy]
    simpa using hne
  constructor
  · show (if pyTruthy ((dictPop (if config_arg.isEmpty then stored_config
        else config_arg) "json_schema").1) then _ else _ : StrDict).lookup
        "json_schema_str" = _
    rw [dictPop]
    simp only [hs, Option.getD_some, htruthy, if_true]
    rw [lookup_dictInsert, if_pos rfl]
  · show ((dictPop (if config_arg.isEmpty then stored_config else config_arg)
        "json_schema").2).lookup "json_schema" = none
    rw [dictPop]
    exact lookup_filter_ne _ _

theorem run_prompt_schema_injection_witness :
    (run_prompt [("json_schema", .pdict [(.pstr "s", .pstr "skill")])] []
        []).input_data.lookup "json_schema_str" =
      some (.pstr "'s': skill") ∧
    (run_prompt [("json_schema", .pdict [(.pstr "s", .pstr "skill")])] []
        []).client_config.lookup "json_schema" = none :=
  run_prompt_schema_injection
    [("json_schema", .pdict [(.pstr "s", .pstr "skill")])] [] []
    [(.pstr "s", .pstr "skill")] rfl (by simp)

/-- C5: evaluation at the failing input.  `run_experiment` reads
`self.env_path` (to build `PromptRunner(prompt_name, env_path=self.env_path)`),
but `__init__` never assigns that attribute, so on a freshly constructed
runner every call raises `AttributeError` before the dataset is sliced
and processes no items at all — the claimed `min(N, L)` items are never
processed.  Once the attribute is assigned the slice
`dataset.items[:test_count]` does process exactly `min(N, L)` items
(all `N` when the limit is absent) as a prefix of the dataset in stored
order, which is the claim's and the spec's evident intent. -/
theorem run_experiment_attribute_error :
    run_experiment experimentRunnerInit [⟨"a", []⟩] none 1000 =
      .error "AttributeError: env_path" ∧
    (∀ (ep : String) (items : List DatasetItem) (L : Nat) (rpm : Int),
      run_experiment ⟨some ep⟩ items (some L) rpm =
        .ok (items.take L,
          (experimentLoop (sleepTime rpm) (items.take L)).2) ∧
      (items.take L).length = min L items.length) ∧
    (∀ (ep : String) (items : List DatasetItem) (rpm : Int),
      run_experiment ⟨some ep⟩ items none rpm =
        .ok (items, (experimentLoop (sleepTime rpm) items).2)) := by
  refine ⟨rfl, ?_, ?_⟩
  · intro ep items L rpm
    refine ⟨?_, by rw [List.length_take]⟩
    exact congrArg Except.ok (experimentLoop_eq _ _)
  · intro ep items rpm
    exact congrArg Except.ok (experimentLoop_eq _ _)

/-- C6: an HTTP error status (4xx or 5xx) from the run-items endpoint
makes `get_dataset_run` return `None` — the `HTTPError` raised by
`raise_for_status` is caught locally and no exception reaches the
caller. -/
theorem get_dataset_run_http_error_none (dataset : List DatasetItem)
    (resp : HTTPResponse) (traceGet : String → Trace) (rpm : Int)
    (trace_info dataset_item_info : List String)
    (herr : httpIsError resp.status = true) :
    get_dataset_run dataset resp traceGet rpm trace_info dataset_item_info =
      .ok none := by
  rw [get_dataset_run, if_pos herr]

theorem get_dataset_run_http_error_none_witness :
    get_dataset_run [] ⟨404, []⟩ (fun _ => ⟨"", []⟩) 25 [] [] = .ok none :=
  get_dataset_run_http_error_none [] ⟨404, []⟩ (fun _ => ⟨"", []⟩) 25 [] []
    (by rfl)

/-- C7: if any fetched trace's recorded dataset-item id is missing from
the id→item lookup built from the dataset, `get_dataset_run` raises the
lookup error (`KeyError`, modelled as `.error` carrying the missing id)
instead of skipping the record or returning a partial result. -/
theorem get_dataset_run_unresolved_id_raises (dataset : List DatasetItem)
    (resp : HTTPResponse) (traceGet : String → Trace) (rpm : Int)
    (trace_info dataset_item_info : List String)
    (hok : httpIsError resp.status = false)
    (hbad : ∃ ri ∈ resp.data,
      (dataset.map (fun item => (item.id, item))).lookup
        (traceGet ri.traceId).metadata_dataset_item_id = none) :
    ∃ k, get_dataset_run dataset resp traceGet rpm trace_info
        dataset_item_info = .error k := by
  obtain ⟨k, hk⟩ := @fetchLoop_error_of_missing traceGet
    (dataset.map (fun item => (item.id, item))) (sleepTime rpm) trace_info
    dataset_item_info resp.data hbad
  refine ⟨k, ?_⟩
  rw [get_dataset_run, if_neg (by simp [hok])]
  simp only [hk]

theorem get_dataset_run_unresolved_id_raises_witness :
    ∃ k, get_dataset_run [⟨"a", []⟩] ⟨200, [⟨"t1"⟩]⟩
        (fun _ => ⟨"missing", []⟩) 25 [] [] = .error k :=
  get_dataset_run_unresolved_id_raises [⟨"a", []⟩] ⟨200, [⟨"t1"⟩]⟩
    (fun _ => ⟨"missing", []⟩) 25 [] [] (by rfl)
    ⟨⟨"t1"⟩, by simp, by rfl⟩

/-- C8 (counterexample): dict keys are not walked by
`make_serializable`, so a mapping whose key is an attribute-bearing
object keeps that object in the output: the result of serializing
`{object_with_dict: None}` is not a tree of mappings, sequences, text
and binary leaves only. -/
theorem make_serializable_object_key_survives :
    serializable (make_serializable
      (.pdict [(.pobj [("a", .pnone)], .pnone)])) = false := by
  simp [make_serializable, serializeEntries, serializeFields, serializable,
    serializableEntries, pyStr]

/-- C8 (amended): on every input whose mapping keys are all text —
values in any position may still be arbitrary — `make_serializable`
returns a tree of mappings, sequences, text and binary leaves only:
containers are walked recursively, attribute-bearing objects are
flattened through their `__dict__`, and every other non-text, non-binary
value is replaced by its text representation. -/
theorem make_serializable_all_primitive (v : PyVal)
    (h : textKeys v = true) :
    serializable (make_serializable v) = true :=
  ms_serializable v h

theorem make_serializable_all_primitive_witness :
    textKeys (.pdict [(.pstr "a", .pobj [("b", .pint 3)])]) = true ∧
    serializable (make_serializable
      (.pdict [(.pstr "a", .pobj [("b", .pint 3)])])) = true :=
  ⟨by simp [textKeys, textKeysEntries, textKeysFields, isPstr],
   make_serializable_all_primitive _
     (by simp [textKeys, textKeysEntries, textKeysFields, isPstr])⟩

/-- C9: `make_serializable` is idempotent — serializing an
already-serialized value changes nothing, for every input value. -/
theorem make_serializable_idempotent (v : PyVal) :
    make_serializable (make_serializable v) = make_serializable v :=
  ms_idem v

/-- C10: every requested trace-field name and item-field name appears as
a key of the merged record, and a name whose attribute is absent from
the fetched trace (resp. the dataset item) is bound to `None` by the
`getattr(·, ·, None)` default rather than raising or being dropped. -/
theorem mergedRecord_requested_keys (trace : Trace) (item : DatasetItem)
    (trace_info dataset_item_info : List String) (k : String) :
    (k ∈ trace_info ∨ k ∈ dataset_item_info →
      k ∈ (mergedRecord trace item trace_info dataset_item_info).map
        Prod.fst) ∧
    (k ∈ dataset_item_info → item.attrs.lookup k = none →
      (mergedRecord trace item trace_info dataset_item_info).lookup k =
        some .pnone) ∧
    (k ∈ trace_info → k ∉ dataset_item_info → trace.attrs.lookup k = none →
      (mergedRecord trace item trace_info dataset_item_info).lookup k =
        some .pnone) := by
  refine ⟨?_, ?_, ?_⟩
  · intro hk
    rw [← lookup_isSome_iff]
    by_cases hdi : k ∈ dataset_item_info
    · rw [mergedRecord_lookup_of_mem trace item trace_info dataset_item_info
        hdi]
      rfl
    · rw [mergedRecord_lookup_of_not_mem trace item trace_info
        dataset_item_info hdi]
      rcases hk with hti | hdi'
      · rw [if_pos hti]; rfl
      · exact absurd hdi' hdi
  · intro hk habs
    rw [mergedRecord_lookup_of_mem trace item trace_info dataset_item_info hk,
      pyGetattr, habs]
    rfl
  · intro hk hk' habs
    rw [mergedRecord_lookup_of_not_mem trace item trace_info dataset_item_info
      hk', if_pos hk, pyGetattr, habs]
    rfl

theorem mergedRecord_requested_keys_witness :
    "input" ∈ (mergedRecord ⟨"i", []⟩ ⟨"i", []⟩ ["input"]
      ["expected_output"]).map Prod.fst ∧
    (mergedRecord ⟨"i", []⟩ ⟨"i", []⟩ ["input"]
      ["expected_output"]).lookup "expected_output" = some .pnone ∧
    (mergedRecord ⟨"i", []⟩ ⟨"i", []⟩ ["input"]
      ["expected_output"]).lookup "input" = some .pnone :=
  ⟨(mergedRecord_requested_keys ⟨"i", []⟩ ⟨"i", []⟩ ["input"]
      ["expected_output"] "input").1 (Or.inl (by simp)),
   (mergedRecord_requested_keys ⟨"i", []⟩ ⟨"i", []⟩ ["input"]
      ["expected_output"] "expected_output").2.1 (by simp) rfl,
   (mergedRecord_requested_keys ⟨"i", []⟩ ⟨"i", []⟩ ["input"]
      ["expected_output"] "input").2.2 (by simp) (by simp) rfl⟩

end LangfuseHandler
